import Mathlib

/-!
Verification development for the blogdown renderer (src/renderer/renderer.go).

The Go code is shallowly embedded: the goldmark AST is modelled as a
first-child / next-sibling tree of typed nodes; the source buffer is a list
of characters indexed by byte offsets; external effects (reading a template
file from disk, executing a Go text/template) are parameters collected in a
`TemplateEnv` record, since templates and the Go template engine are outside
this repository.  `fmt.Sprintf` formatting, `path.Join`/`path.Clean` and the
goldmark `Segment.Value` slice are translated from their documented Go
behaviour.  File-system effects of `RenderAst` (directory creation and the
final `WriteFile`) are modelled by returning the write destination and the
written content in a `RenderOutput` record on success; an `Except.error`
result means no file is written.
-/

/-- A byte range into the source buffer, mirroring goldmark `text.Segment`
(`Start`, `Stop`, `Padding`). -/
structure Segment where
  start : Nat
  stop : Nat
  padding : Nat := 0
  deriving Repr, DecidableEq

/-- `Segment.Value(buffer)`: `Padding` spaces followed by `buffer[Start:Stop]`. -/
def Segment.value (s : Segment) (buffer : List Char) : String :=
  String.mk (List.replicate s.padding ' ' ++ (buffer.drop s.start).take (s.stop - s.start))

/-- The node kinds registered by the goldmark base parser, plus `other` for
kinds introduced by extensions (e.g. the GFM table kinds), which have no
entry in `KindTemplateMap`. -/
inductive NodeKind where
  | document
  | textBlock
  | paragraph
  | heading
  | thematicBreak
  | codeBlock
  | fencedCodeBlock
  | blockquote
  | list
  | listItem
  | htmlBlock
  | text
  | stringLit
  | codeSpan
  | emphasis
  | link
  | image
  | autoLink
  | rawHTML
  | other (name : String)
  deriving Repr, DecidableEq

/-- `NodeKind.String()` as registered by goldmark (`ast.NewNodeKind` names). -/
def NodeKind.name : NodeKind → String
  | .document => "Document"
  | .textBlock => "TextBlock"
  | .paragraph => "Paragraph"
  | .heading => "Heading"
  | .thematicBreak => "ThematicBreak"
  | .codeBlock => "CodeBlock"
  | .fencedCodeBlock => "FencedCodeBlock"
  | .blockquote => "Blockquote"
  | .list => "List"
  | .listItem => "ListItem"
  | .htmlBlock => "HTMLBlock"
  | .text => "Text"
  | .stringLit => "String"
  | .codeSpan => "CodeSpan"
  | .emphasis => "Emphasis"
  | .link => "Link"
  | .image => "Image"
  | .autoLink => "AutoLink"
  | .rawHTML => "RawHTML"
  | .other n => n

/-- The kind tag together with the kind-specific payload used by the
renderer: `ast.Text` carries a segment and the soft-line-break flag,
`ast.FencedCodeBlock` carries its recorded line segments, `ast.Heading`
its `Level`, `ast.Emphasis` its `Level`.  Kinds whose payload the renderer
never inspects carry none. -/
inductive NodeData where
  | document
  | textBlock
  | paragraph
  | heading (level : Int)
  | thematicBreak
  | codeBlock
  | fencedCodeBlock (lines : List Segment)
  | blockquote
  | list
  | listItem
  | htmlBlock
  | text (segment : Segment) (softLineBreak : Bool)
  | stringLit
  | codeSpan
  | emphasis (level : Int)
  | link
  | image
  | autoLink
  | rawHTML
  | other (name : String)
  deriving Repr, DecidableEq

/-- `Node.Kind()` determined by the payload variant. -/
def NodeData.kind : NodeData → NodeKind
  | .document => .document
  | .textBlock => .textBlock
  | .paragraph => .paragraph
  | .heading _ => .heading
  | .thematicBreak => .thematicBreak
  | .codeBlock => .codeBlock
  | .fencedCodeBlock _ => .fencedCodeBlock
  | .blockquote => .blockquote
  | .list => .list
  | .listItem => .listItem
  | .htmlBlock => .htmlBlock
  | .text _ _ => .text
  | .stringLit => .stringLit
  | .codeSpan => .codeSpan
  | .emphasis _ => .emphasis
  | .link => .link
  | .image => .image
  | .autoLink => .autoLink
  | .rawHTML => .rawHTML
  | .other n => .other n

/-- A goldmark AST node: payload, `FirstChild()` and `NextSibling()`. -/
inductive Node where
  | mk (data : NodeData) (firstChild : Option Node) (nextSibling : Option Node)

def Node.data : Node → NodeData
  | .mk d _ _ => d

def Node.firstChild : Node → Option Node
  | .mk _ fc _ => fc

def Node.nextSibling : Node → Option Node
  | .mk _ _ ns => ns

/-- `n.Kind()`. -/
def Node.kind (n : Node) : NodeKind :=
  n.data.kind

/-- `n.HasChildren()`. -/
def Node.hasChildren (n : Node) : Bool :=
  n.firstChild.isSome

/-- The `PageMeta` struct of renderer.go. -/
structure PageMeta where
  Title : String
  Description : String
  Slug : String
  Path : String
  deriving Repr, DecidableEq

/-- Values stored in the `map[string]interface{}` config: the renderer puts
an `int` under "level" and a `string` under "tagType". -/
inductive ConfigValue where
  | int (n : Int)
  | str (s : String)
  deriving Repr, DecidableEq

/-- The `TemplateData` struct of renderer.go; the Go `map[string]interface{}`
config is an association list. -/
structure TemplateData where
  Meta : PageMeta
  Config : List (String × ConfigValue)
  Content : String
  Children : String
  deriving Repr, DecidableEq

/-- `generateTemplateDataContent`: the content extractor.  Matching on the
payload variant embeds the Go switch on `n.Kind()` followed by the type
assertion, since each kind determines the payload variant. -/
def generateTemplateDataContent (n : Node) (inputFileBytes : List Char) : String :=
  match n.data with
  | .text segment softLineBreak =>
    let content := segment.value inputFileBytes
    if softLineBreak then
      content ++ "\n"
    else
      content ++ "<br/>\n"
  | .fencedCodeBlock lines =>
    lines.foldl (fun content line => content ++ line.value inputFileBytes) ""
  | _ => ""

/-- `generateTemplateDataConfig`: the configuration extractor. -/
def generateTemplateDataConfig (n : Node) : List (String × ConfigValue) :=
  match n.data with
  | .heading level => [("level", ConfigValue.int level)]
  | .emphasis level =>
    if level == 1 then
      [("tagType", ConfigValue.str "em")]
    else
      [("tagType", ConfigValue.str "strong")]
  | _ => []

/-- Go `strings.HasPrefix(s, "/")`: does the string start with a slash? -/
def hasLeadingSlash (s : String) : Bool :=
  match s.data with
  | '/' :: _ => true
  | _ => false

/-- Split a character list at every slash (the slash-separated segments of
a path, empty segments included). -/
def splitOnSlash : List Char → List (List Char)
  | [] => [[]]
  | c :: rest =>
    match splitOnSlash rest with
    | [] => if c = '/' then [[], []] else [[c]]
    | s :: ss => if c = '/' then [] :: s :: ss else (c :: s) :: ss

/-- Go `path.Clean` on slash-separated paths: drop empty and "." segments,
resolve ".." against preceding segments (".." at the root is dropped,
leading ".." on a relative path is kept), return "." for an empty relative
result and "/" for an empty rooted result. -/
def goPathClean (p : String) : String :=
  if p = "" then "." else
  let rooted := hasLeadingSlash p
  let out := (splitOnSlash p.data).foldl
    (fun acc seg =>
      if seg = [] ∨ seg = ['.'] then acc
      else if seg = ['.', '.'] then
        match acc with
        | [] => if rooted then [] else [seg]
        | a :: rest => if a = ['.', '.'] then seg :: acc else rest
      else seg :: acc) ([] : List (List Char))
  let parts := out.reverse
  if parts.isEmpty then (if rooted then "/" else ".")
  else (if rooted then "/" else "") ++ String.mk (List.intercalate ['/'] parts)

/-- Go `path.Join`: skip leading empty elements, join the rest with "/" and
clean the result; all-empty input yields "". -/
def goPathJoin (elems : List String) : String :=
  match elems.dropWhile (· = "") with
  | [] => ""
  | rest => goPathClean (String.intercalate "/" rest)

/-- The template-path constants of renderer.go. -/
def DocumentTemplatePath : String := "../templates/block/document.tmpl.html"

def TextBlockTemplatePath : String := "../templates/block/text-block.tmpl.html"

def ParagraphTemplatePath : String := "../templates/block/paragraph.tmpl.html"

def HeadingTemplatePath : String := "../templates/block/heading.tmpl.html"

def ThematicBreakTemplatePath : String := "../templates/block/thematic-break.tmpl.html"

def CodeBlockTemplatePath : String := "../templates/block/code-block.tmpl.html"

def FencedCodeBlockTemplatePath : String := "../templates/block/fenced-code-block.tmpl.html"

def BlockquoteTemplatePath : String := "../templates/block/blockquote.tmpl.html"

def ListTemplatePath : String := "../templates/block/list.tmpl.html"

def ListItemTemplatePath : String := "../templates/block/list-item.tmpl.html"

def HTMLBlockTemplatePath : String := "../templates/block/html-block.tmpl.html"

def TextTemplatePath : String := "../templates/inline/text.tmpl.html"

def StringTemplatePath : String := "../templates/inline/string.tmpl.html"

def CodeSpanTemplatePath : String := "../templates/inline/code-span.tmpl.html"

def EmphasisTemplatePath : String := "../templates/inline/emphasis.tmpl.html"

def LinkTemplatePath : String := "../templates/inline/link.tmpl.html"

def ImageTemplatePath : String := "../templates/inline/image.tmpl.html"

def AutoLinkTemplatePath : String := "../templates/inline/auto-link.tmpl.html"

def RawHTMLTemplatePath : String := "../templates/inline/raw-html.tmpl.html"

/-- `KindTemplateMap` as populated by `InitKindTemplateMap`: each base kind
maps to its template path joined onto the renderer directory
(`path.Dir(runtime.Caller file)`, a parameter here); extension kinds have no
entry. -/
def KindTemplateMap (rendererPath : String) : NodeKind → Option String
  | .document => some (goPathJoin [rendererPath, DocumentTemplatePath])
  | .textBlock => some (goPathJoin [rendererPath, TextBlockTemplatePath])
  | .paragraph => some (goPathJoin [rendererPath, ParagraphTemplatePath])
  | .heading => some (goPathJoin [rendererPath, HeadingTemplatePath])
  | .thematicBreak => some (goPathJoin [rendererPath, ThematicBreakTemplatePath])
  | .codeBlock => some (goPathJoin [rendererPath, CodeBlockTemplatePath])
  | .fencedCodeBlock => some (goPathJoin [rendererPath, FencedCodeBlockTemplatePath])
  | .blockquote => some (goPathJoin [rendererPath, BlockquoteTemplatePath])
  | .list => some (goPathJoin [rendererPath, ListTemplatePath])
  | .listItem => some (goPathJoin [rendererPath, ListItemTemplatePath])
  | .htmlBlock => some (goPathJoin [rendererPath, HTMLBlockTemplatePath])
  | .text => some (goPathJoin [rendererPath, TextTemplatePath])
  | .stringLit => some (goPathJoin [rendererPath, StringTemplatePath])
  | .codeSpan => some (goPathJoin [rendererPath, CodeSpanTemplatePath])
  | .emphasis => some (goPathJoin [rendererPath, EmphasisTemplatePath])
  | .link => some (goPathJoin [rendererPath, LinkTemplatePath])
  | .image => some (goPathJoin [rendererPath, ImageTemplatePath])
  | .autoLink => some (goPathJoin [rendererPath, AutoLinkTemplatePath])
  | .rawHTML => some (goPathJoin [rendererPath, RawHTMLTemplatePath])
  | .other _ => none

/-- The external collaborators of the renderer: the directory of the renderer
source file (from `runtime.Caller`), `ioutil.ReadFile` on template paths,
and Go `text/template` parse-and-execute (`renderTemplateToString`).
Template bodies and the template engine live outside this repository, so
they are parameters of the embedding. -/
structure TemplateEnv where
  rendererPath : String
  readFile : String → Except String String
  execute : String → TemplateData → Except String String

/-- The error `getTemplateContent` returns for a kind with no binding in
`KindTemplateMap`; it names the offending kind. -/
def noTemplateMsg (nodeKind : NodeKind) : String :=
  "rendering error: node kind (" ++ nodeKind.name ++
    ") doesn\x27t have a template assigned to it"

/-- `getTemplateContent`: resolve the node kind in `KindTemplateMap`
(failing with the kind-naming error when absent) and read the template file
(wrapping a read failure in the reading error). -/
def getTemplateContent (env : TemplateEnv) (nodeKind : NodeKind) : Except String String :=
  match KindTemplateMap env.rendererPath nodeKind with
  | none => .error (noTemplateMsg nodeKind)
  | some templatePath =>
    match env.readFile templatePath with
    | .error e =>
      .error ("rendering error: while reading template " ++ templatePath ++ ": " ++ e)
    | .ok templateContent => .ok templateContent

/-- `renderAstNode`: render the first child chain (if any), resolve and
execute the template of this node with the extracted content and config, then
render the next sibling and join with a single newline.  The `Except` bind
embeds the Go early-return-on-error sequencing. -/
def renderAstNode (env : TemplateEnv) (pageMetadata : PageMeta) (n₀ : Node)
    (inputFileBytes : List Char) : Except String String :=
  match n₀ with
  | .mk d fc ns => do
    let firstChildContent ← (match fc with
      | some c => renderAstNode env pageMetadata c inputFileBytes
      | none => Except.ok "")
    let templateContent ← getTemplateContent env (Node.mk d fc ns).kind
    let output ← env.execute templateContent
      { Meta := pageMetadata
        Config := generateTemplateDataConfig (Node.mk d fc ns)
        Content := generateTemplateDataContent (Node.mk d fc ns) inputFileBytes
        Children := firstChildContent }
    match ns with
    | none => Except.ok output
    | some sib => do
      let nextSiblingContent ← renderAstNode env pageMetadata sib inputFileBytes
      Except.ok (output ++ "\n" ++ nextSiblingContent)
termination_by sizeOf n₀
decreasing_by all_goals (simp_wf; omega)

/-- The fragment a single node contributes before sibling joining: steps
1-4 of `renderAstNode` (children rendered, template resolved and executed),
with the `NextSibling` step omitted. -/
def renderNodeFrag (env : TemplateEnv) (pageMetadata : PageMeta) (n : Node)
    (inputFileBytes : List Char) : Except String String := do
  let firstChildContent ← (match n.firstChild with
    | some c => renderAstNode env pageMetadata c inputFileBytes
    | none => Except.ok "")
  let templateContent ← getTemplateContent env n.kind
  env.execute templateContent
    { Meta := pageMetadata
      Config := generateTemplateDataConfig n
      Content := generateTemplateDataContent n inputFileBytes
      Children := firstChildContent }

/-- The sibling chain starting at a node: the node followed by everything
reachable through `NextSibling`. -/
def siblingChain (n₀ : Node) : List Node :=
  match n₀ with
  | .mk d fc ns =>
    Node.mk d fc ns ::
      (match ns with
       | some s => siblingChain s
       | none => [])
termination_by sizeOf n₀
decreasing_by all_goals (simp_wf; omega)

/-- Does the tree reachable from `n` through `FirstChild` and `NextSibling`
contain a node of the given kind-predicate? -/
def treeHasKind (p : NodeKind → Bool) (n₀ : Node) : Bool :=
  match n₀ with
  | .mk d fc ns =>
    p (NodeData.kind d) ||
      (match fc with
       | some c => treeHasKind p c
       | none => false) ||
      (match ns with
       | some s => treeHasKind p s
       | none => false)
termination_by sizeOf n₀
decreasing_by all_goals (simp_wf; omega)

/-- Front-matter metadata values (`map[string]interface{}` produced by the
YAML front-matter parser): strings, integers and booleans. -/
inductive MetaValue where
  | str (s : String)
  | int (n : Int)
  | bool (b : Bool)
  deriving Repr, DecidableEq

/-- Go `fmt.Sprintf("%s", v)` on an `interface{}`: a string prints itself;
a plain int or bool has no String method, so `%s` prints the
`%!s(type=value)` bad-verb form. -/
def sprintfS : MetaValue → String
  | .str s => s
  | .int n => "%!s(int=" ++ toString n ++ ")"
  | .bool b => "%!s(bool=" ++ (if b then "true" else "false") ++ ")"

/-- The validation error for a missing metadata key, as formatted by
`RenderAst`. -/
def missingFieldMsg (field : String) : String :=
  "rendering error: page does not contain \"" ++ field ++ "\" in metadata"

/-- The validation error for a page path without a leading slash. -/
def badPathMsg : String :=
  "rendering error: page path doesn\x27t being with a \"/\" (forward slash)"

/-- What a successful `RenderAst` call did: the `PageMeta` it passed to
`renderAstNode`, the destination of the `ioutil.WriteFile` call, and the
written bytes.  An `Except.error` result models returning before the write,
so no file is produced. -/
structure RenderOutput where
  pageMeta : PageMeta
  writePath : String
  content : String
  deriving Repr, DecidableEq

/-- The post-validation body of `RenderAst`: render the document node with
the synthesized `PageMeta`, then write the output under
`path.Join("build", pagePath, "/index.html")` (directory creation via
`os.MkdirAll` is idempotent and modelled as part of the write). -/
def renderAndWrite (env : TemplateEnv) (pageMeta : PageMeta) (pagePath : String)
    (documentNode : Node) (inputFileBytes : List Char) : Except String RenderOutput :=
  match renderAstNode env pageMeta documentNode inputFileBytes with
  | .error e => .error e
  | .ok output =>
    .ok { pageMeta := pageMeta
          writePath := goPathJoin ["build", pagePath, "/index.html"]
          content := output }

/-- `RenderAst`: look up `title`, `description`, `slug`, `path` in that
order, failing with a field-naming error at the first absent key; coerce
each present value with `fmt.Sprintf("%s", ...)`; reject a path without a
leading "/"; then build the `PageMeta` (its `Path` field set to the
`DocumentTemplatePath` constant) and render and persist the page. -/
def RenderAst (env : TemplateEnv) (pageMetadata : List (String × MetaValue))
    (documentNode : Node) (inputFileBytes : List Char) : Except String RenderOutput :=
  match pageMetadata.lookup "title" with
  | none => .error (missingFieldMsg "title")
  | some pageTitleInt =>
    let pageTitle := sprintfS pageTitleInt
    match pageMetadata.lookup "description" with
    | none => .error (missingFieldMsg "description")
    | some pageDescriptionInt =>
      let pageDescription := sprintfS pageDescriptionInt
      match pageMetadata.lookup "slug" with
      | none => .error (missingFieldMsg "slug")
      | some pageSlugInt =>
        let pageSlug := sprintfS pageSlugInt
        match pageMetadata.lookup "path" with
        | none => .error (missingFieldMsg "path")
        | some pagePathInt =>
          let pagePath := sprintfS pagePathInt
          if ¬ hasLeadingSlash pagePath then
            .error badPathMsg
          else
            renderAndWrite env
              { Title := pageTitle
                Description := pageDescription
                Slug := pageSlug
                Path := DocumentTemplatePath }
              pagePath documentNode inputFileBytes

/-- The four metadata keys `RenderAst` requires, in the order it checks
them. -/
def requiredFields : List String :=
  ["title", "description", "slug", "path"]

/-- Concrete environment for instance checks: every template path reads
back as itself in brackets, and template execution surrounds the content
and children with visible delimiters. -/
def envW : TemplateEnv :=
  { rendererPath := "/r"
    readFile := fun p => .ok ("[" ++ p ++ "]")
    execute := fun tc td => .ok (tc ++ "(" ++ td.Content ++ ")(" ++ td.Children ++ ")") }

/-- Concrete page metadata for instance checks. -/
def pmW : PageMeta :=
  { Title := "t", Description := "d", Slug := "s", Path := DocumentTemplatePath }

/-- Concrete source buffer for instance checks. -/
def srcW : List Char := "hello world".toList

/-- A plain-text node over bytes 6..11 of `srcW`, hard line break. -/
def textNodeW2 : Node := .mk (.text ⟨6, 11, 0⟩ false) none none

/-- A two-node sibling chain of text nodes over `srcW`. -/
def chainW : Node := .mk (.text ⟨0, 5, 0⟩ true) none (some textNodeW2)

/-- A node of an extension kind with no entry in `KindTemplateMap`. -/
def unregW : Node := .mk (.other "Table") none none

/-- A single plain-text node over bytes 0..5 of `srcW`. -/
def textNodeW : Node := .mk (.text ⟨0, 5, 0⟩ true) none none

/-- Complete, well-formed metadata with a leading-slash path. -/
def mdGoodW : List (String × MetaValue) :=
  [("title", .str "T"), ("description", .str "D"), ("slug", .str "S"),
   ("path", .str "/about")]

/-- Complete metadata whose path lacks the leading slash. -/
def mdBadPathW : List (String × MetaValue) :=
  [("title", .str "T"), ("description", .str "D"), ("slug", .str "S"),
   ("path", .str "about")]

/-- Metadata missing "description", "slug" and "path". -/
def mdMissingW : List (String × MetaValue) :=
  [("title", .str "T")]

/-- Complete metadata whose title, description and slug are not strings. -/
def mdTypedW : List (String × MetaValue) :=
  [("title", .int 7), ("description", .bool true), ("slug", .int 0),
   ("path", .str "/p")]

/-- The output record of the successful concrete `RenderAst` run on
`mdGoodW` and `textNodeW`. -/
def outG : RenderOutput :=
  { pageMeta := { Title := "T", Description := "D", Slug := "S",
                  Path := DocumentTemplatePath }
    writePath := "build/about/index.html"
    content := "[/templates/inline/text.tmpl.html](hello\n)()" }

/-- Unfolding of `renderAstNode` through `renderNodeFrag`: the result at a
node is its own fragment, joined to the rendered next sibling by a newline. -/
theorem renderAstNode_decomp (env : TemplateEnv) (pm : PageMeta) (d : NodeData)
    (fc ns : Option Node) (src : List Char) :
    renderAstNode env pm (.mk d fc ns) src = (do
      let output ← renderNodeFrag env pm (.mk d fc ns) src
      match ns with
      | none => Except.ok output
      | some sib => do
        let next ← renderAstNode env pm sib src
        Except.ok (output ++ "\n" ++ next)) := by
  rw [renderAstNode.eq_def]
  simp only [renderNodeFrag, Node.firstChild, Node.kind, Node.data, bind_assoc]

theorem intercalate_go_extract (s : String) : ∀ (as : List String) (a b : String),
    String.intercalate.go (a ++ b) s as = a ++ String.intercalate.go b s as := by
  intro as
  induction as with
  | nil => intro a b; simp [String.intercalate.go]
  | cons c cs ih =>
    intro a b
    show String.intercalate.go (a ++ b ++ s ++ c) s cs =
      a ++ String.intercalate.go (b ++ s ++ c) s cs
    rw [String.append_assoc, String.append_assoc, ← String.append_assoc b s c]
    exact ih a (b ++ s ++ c)

theorem intercalate_cons (s a : String) (l : List String) (h : l ≠ []) :
    String.intercalate s (a :: l) = a ++ s ++ String.intercalate s l := by
  cases l with
  | nil => exact absurd rfl h
  | cons b t =>
    show String.intercalate.go a s (b :: t) = a ++ s ++ String.intercalate.go b s t
    show String.intercalate.go (a ++ s ++ b) s t = _
    exact intercalate_go_extract s t (a ++ s) b

/-- A successful render of a node is the newline-join of the fragments of
its whole sibling chain, each fragment rendered successfully. -/
theorem renderChain_aux (env : TemplateEnv) (pm : PageMeta) (src : List Char) :
    ∀ (k : Nat) (n : Node), sizeOf n ≤ k → ∀ (out : String),
      renderAstNode env pm n src = .ok out →
      ∃ frags : List String,
        (siblingChain n).map (fun m => renderNodeFrag env pm m src) = frags.map Except.ok ∧
        out = String.intercalate "\n" frags := by
  intro k
  induction k with
  | zero =>
    intro n hn
    obtain ⟨d, fc, ns⟩ := n
    simp [Node.mk.sizeOf_spec] at hn
  | succ k ih =>
    intro n hn out hout
    obtain ⟨d, fc, ns⟩ := n
    rw [renderAstNode_decomp] at hout
    cases hfrag : renderNodeFrag env pm (.mk d fc ns) src with
    | error e => rw [hfrag] at hout; simp [Bind.bind, Except.bind] at hout
    | ok f =>
      rw [hfrag] at hout
      cases ns with
      | none =>
        simp only [Bind.bind, Except.bind, Except.ok.injEq] at hout
        refine ⟨[f], ?_, ?_⟩
        · rw [siblingChain.eq_def]
          simp [hfrag]
        · rw [← hout]
          rfl
      | some sib =>
        simp only [Bind.bind, Except.bind] at hout
        cases hsib : renderAstNode env pm sib src with
        | error e => rw [hsib] at hout; simp at hout
        | ok rest =>
          rw [hsib] at hout
          simp only [Except.ok.injEq] at hout
          have hs : sizeOf sib ≤ k := by
            simp [Node.mk.sizeOf_spec] at hn
            omega
          obtain ⟨fr, hmap, hrest⟩ := ih sib hs rest hsib
          have hne : fr ≠ [] := by
            intro hfr
            subst hfr
            obtain ⟨d2, fc2, ns2⟩ := sib
            rw [siblingChain.eq_def] at hmap
            simp at hmap
          refine ⟨f :: fr, ?_, ?_⟩
          · rw [siblingChain.eq_def]
            simp only [List.map_cons, List.map]
            rw [hfrag]
            simp [hmap]
          · rw [intercalate_cons _ _ _ hne, ← hrest, ← hout]

/-- C1: for every tree whose root starts a sibling chain, a successful
render is exactly the fragments of the chain, each node rendered once,
in left-to-right order, joined by single newlines; and a node with neither
children nor a next sibling returns exactly its own rendered fragment with
no trailing separator. -/
theorem renderAstNode_sibling_order (env : TemplateEnv) (pm : PageMeta) (n : Node)
    (src : List Char) (out : String) (h : renderAstNode env pm n src = .ok out) :
    (∃ frags : List String,
      (siblingChain n).map (fun m => renderNodeFrag env pm m src) = frags.map Except.ok ∧
      frags.length = (siblingChain n).length ∧
      out = String.intercalate "\n" frags) ∧
    ∀ d : NodeData, renderAstNode env pm (.mk d none none) src =
      renderNodeFrag env pm (.mk d none none) src := by
  constructor
  · obtain ⟨frags, hmap, hout⟩ := renderChain_aux env pm src (sizeOf n) n le_rfl out h
    refine ⟨frags, hmap, ?_, hout⟩
    have hlen := congrArg List.length hmap
    simpa using hlen.symm
  · intro d
    rw [renderAstNode_decomp]
    cases hfrag : renderNodeFrag env pm (.mk d none none) src <;>
      simp [Bind.bind, Except.bind]

/-- C1 instance: a concrete two-node chain of text nodes rendered with a
concrete environment satisfies the chain decomposition. -/
theorem renderAstNode_sibling_order_witness :
    (∃ frags : List String,
      (siblingChain chainW).map (fun m => renderNodeFrag envW pmW m srcW) = frags.map Except.ok ∧
      frags.length = (siblingChain chainW).length ∧
      "[/templates/inline/text.tmpl.html](hello\n)()\n[/templates/inline/text.tmpl.html](world<br/>\n)()" =
        String.intercalate "\n" frags) ∧
    renderAstNode envW pmW (.mk .paragraph none none) srcW =
      renderNodeFrag envW pmW (.mk .paragraph none none) srcW := by
  have h := renderAstNode_sibling_order envW pmW chainW srcW _
    (by simp only [chainW, textNodeW2, renderAstNode_decomp]; rfl)
  exact ⟨h.1, h.2 .paragraph⟩

/-- C2: for every plain-text node, the content extractor returns the byte
range of the node sliced from the source, followed by a newline when the
soft-line-break flag is set and by a br marker plus newline otherwise; in
particular source bytes "hello" yield "hello\n" and "hello<br/>\n". -/
theorem generateTemplateDataContent_text_spec (seg : Segment) (sb : Bool)
    (fc ns : Option Node) (src : List Char) :
    generateTemplateDataContent (.mk (.text seg sb) fc ns) src =
      seg.value src ++ (if sb then "\n" else "<br/>\n") ∧
    generateTemplateDataContent (.mk (.text ⟨0, 5, 0⟩ true) none none) "hello".toList =
      "hello\n" ∧
    generateTemplateDataContent (.mk (.text ⟨0, 5, 0⟩ false) none none) "hello".toList =
      "hello<br/>\n" := by
  refine ⟨?_, rfl, rfl⟩
  cases sb <;> simp [generateTemplateDataContent, Node.data]

/-- C3: for every fenced-code-block node, the content extractor returns the
concatenation, in recorded order, of the values of the recorded line ranges
with no separators; in particular lines "foo\n" and "bar\n" yield
"foo\nbar\n". -/
theorem generateTemplateDataContent_fenced_spec (lines : List Segment)
    (fc ns : Option Node) (src : List Char) :
    generateTemplateDataContent (.mk (.fencedCodeBlock lines) fc ns) src =
      String.join (lines.map (fun l => l.value src)) ∧
    generateTemplateDataContent
        (.mk (.fencedCodeBlock [⟨0, 4, 0⟩, ⟨4, 8, 0⟩]) none none) "foo\nbar\n".toList =
      "foo\nbar\n" := by
  refine ⟨?_, rfl⟩
  simp [generateTemplateDataContent, Node.data, String.join, List.foldl_map]

/-- C4: the configuration extractor is total and returns exactly a "level"
entry holding the nesting level for a heading, a "tagType" entry that is
"em" for single-level emphasis and "strong" for any other strength, and the
empty mapping for every other kind. -/
theorem generateTemplateDataConfig_spec :
    (∀ (level : Int) (fc ns : Option Node),
      generateTemplateDataConfig (.mk (.heading level) fc ns) =
        [("level", ConfigValue.int level)]) ∧
    (∀ (level : Int) (fc ns : Option Node),
      generateTemplateDataConfig (.mk (.emphasis level) fc ns) =
        if level = 1 then [("tagType", ConfigValue.str "em")]
        else [("tagType", ConfigValue.str "strong")]) ∧
    (∀ n : Node, n.kind ≠ .heading → n.kind ≠ .emphasis →
      generateTemplateDataConfig n = []) := by
  refine ⟨fun level fc ns => rfl, fun level fc ns => ?_, fun n h1 h2 => ?_⟩
  · simp [generateTemplateDataConfig, Node.data]
  · obtain ⟨d, fc, ns⟩ := n
    cases d <;> simp_all [generateTemplateDataConfig, Node.kind, Node.data, NodeData.kind]

/-- C4 instance: heading level 3, emphasis level 2 and a paragraph node. -/
theorem generateTemplateDataConfig_spec_witness :
    generateTemplateDataConfig (.mk (.heading 3) none none) =
      [("level", ConfigValue.int 3)] ∧
    generateTemplateDataConfig (.mk (.emphasis 2) none none) =
      [("tagType", ConfigValue.str "strong")] ∧
    generateTemplateDataConfig (.mk .paragraph none none) = [] := by
  refine ⟨generateTemplateDataConfig_spec.1 3 none none, ?_,
    generateTemplateDataConfig_spec.2.2 (.mk .paragraph none none) (by decide) (by decide)⟩
  have h := generateTemplateDataConfig_spec.2.1 2 none none
  simpa using h

/-- C8: the content extractor is total, and every node whose kind is
neither plain text nor fenced code block yields the empty string for every
source buffer. -/
theorem generateTemplateDataContent_default_spec (n : Node) (src : List Char)
    (h1 : n.kind ≠ .text) (h2 : n.kind ≠ .fencedCodeBlock) :
    generateTemplateDataContent n src = "" := by
  obtain ⟨d, fc, ns⟩ := n
  cases d <;> simp_all [generateTemplateDataContent, Node.kind, Node.data, NodeData.kind]

/-- C8 instance: a paragraph node yields empty content. -/
theorem generateTemplateDataContent_default_spec_witness :
    generateTemplateDataContent (.mk .paragraph none none) srcW = "" :=
  generateTemplateDataContent_default_spec (.mk .paragraph none none) srcW
    (by decide) (by decide)

/-- C5: metadata lacking a required key makes `RenderAst` fail, for every
tree, environment and source, with the field-naming validation error, and
no `RenderOutput` (no file write) is produced. -/
theorem RenderAst_missing_field_spec (md : List (String × MetaValue))
    (h : ∃ f ∈ requiredFields, md.lookup f = none) :
    ∃ f ∈ requiredFields, md.lookup f = none ∧
      (∃ pre post, missingFieldMsg f = pre ++ f ++ post) ∧
      ∀ (env : TemplateEnv) (n : Node) (src : List Char),
        RenderAst env md n src = .error (missingFieldMsg f) := by
  cases ht : md.lookup "title" with
  | none =>
    exact ⟨"title", by simp [requiredFields], ht,
      ⟨"rendering error: page does not contain \"", "\" in metadata", rfl⟩,
      fun env n src => by simp [RenderAst, ht]⟩
  | some tv =>
    cases hd : md.lookup "description" with
    | none =>
      exact ⟨"description", by simp [requiredFields], hd,
        ⟨"rendering error: page does not contain \"", "\" in metadata", rfl⟩,
        fun env n src => by simp [RenderAst, ht, hd]⟩
    | some dv =>
      cases hs : md.lookup "slug" with
      | none =>
        exact ⟨"slug", by simp [requiredFields], hs,
          ⟨"rendering error: page does not contain \"", "\" in metadata", rfl⟩,
          fun env n src => by simp [RenderAst, ht, hd, hs]⟩
      | some sv =>
        cases hp : md.lookup "path" with
        | none =>
          exact ⟨"path", by simp [requiredFields], hp,
            ⟨"rendering error: page does not contain \"", "\" in metadata", rfl⟩,
            fun env n src => by simp [RenderAst, ht, hd, hs, hp]⟩
        | some pv =>
          exfalso
          obtain ⟨f, hf, hnone⟩ := h
          simp [requiredFields] at hf
          rcases hf with rfl | rfl | rfl | rfl <;> simp_all

/-- C5 instance: metadata containing only "title" is rejected with an error
naming a missing field. -/
theorem RenderAst_missing_field_spec_witness :
    ∃ f ∈ requiredFields, mdMissingW.lookup f = none ∧
      (∃ pre post, missingFieldMsg f = pre ++ f ++ post) ∧
      ∀ (env : TemplateEnv) (n : Node) (src : List Char),
        RenderAst env mdMissingW n src = .error (missingFieldMsg f) :=
  RenderAst_missing_field_spec mdMissingW ⟨"description", by decide, by decide⟩

/-- C6: a "path" value without a leading slash makes `RenderAst` fail (with
the slash-specific error when the other fields are present) and produce no
output record; a successful render writes to
`path.Join("build", path, "/index.html")`, which for "/about" is
"build/about/index.html". -/
theorem RenderAst_path_validation_spec :
    (∀ (md : List (String × MetaValue)) (pv : MetaValue) (env : TemplateEnv)
        (n : Node) (src : List Char),
      md.lookup "path" = some pv → hasLeadingSlash (sprintfS pv) = false →
      ∃ e, RenderAst env md n src = .error e) ∧
    (∀ (md : List (String × MetaValue)) (tv dv sv pv : MetaValue)
        (env : TemplateEnv) (n : Node) (src : List Char),
      md.lookup "title" = some tv → md.lookup "description" = some dv →
      md.lookup "slug" = some sv → md.lookup "path" = some pv →
      hasLeadingSlash (sprintfS pv) = false →
      RenderAst env md n src = .error badPathMsg) ∧
    (∀ (env : TemplateEnv) (md : List (String × MetaValue)) (n : Node)
        (src : List Char) (out : RenderOutput),
      RenderAst env md n src = .ok out →
      ∃ pv, md.lookup "path" = some pv ∧ hasLeadingSlash (sprintfS pv) = true ∧
        out.writePath = goPathJoin ["build", sprintfS pv, "/index.html"]) ∧
    goPathJoin ["build", "/about", "/index.html"] = "build/about/index.html" := by
  refine ⟨?_, ?_, ?_, rfl⟩
  · intro md pv env n src hp hslash
    cases ht : md.lookup "title" with
    | none => exact ⟨missingFieldMsg "title", by simp [RenderAst, ht]⟩
    | some tv =>
      cases hd : md.lookup "description" with
      | none => exact ⟨missingFieldMsg "description", by simp [RenderAst, ht, hd]⟩
      | some dv =>
        cases hs : md.lookup "slug" with
        | none => exact ⟨missingFieldMsg "slug", by simp [RenderAst, ht, hd, hs]⟩
        | some sv =>
          exact ⟨badPathMsg, by simp [RenderAst, ht, hd, hs, hp, hslash]⟩
  · intro md tv dv sv pv env n src ht hd hs hp hslash
    simp [RenderAst, ht, hd, hs, hp, hslash]
  · intro env md n src out hout
    cases ht : md.lookup "title" with
    | none => rw [RenderAst.eq_def] at hout; simp [ht] at hout
    | some tv =>
      cases hd : md.lookup "description" with
      | none => rw [RenderAst.eq_def] at hout; simp [ht, hd] at hout
      | some dv =>
        cases hs : md.lookup "slug" with
        | none => rw [RenderAst.eq_def] at hout; simp [ht, hd, hs] at hout
        | some sv =>
          cases hp : md.lookup "path" with
          | none => rw [RenderAst.eq_def] at hout; simp [ht, hd, hs, hp] at hout
          | some pv =>
            refine ⟨pv, rfl, ?_⟩
            cases hslash : hasLeadingSlash (sprintfS pv) with
            | false =>
              rw [RenderAst.eq_def] at hout
              simp [ht, hd, hs, hp, hslash] at hout
            | true =>
              rw [RenderAst.eq_def] at hout
              simp [ht, hd, hs, hp, hslash] at hout
              refine ⟨rfl, ?_⟩
              unfold renderAndWrite at hout
              cases hr : renderAstNode env
                  { Title := sprintfS tv, Description := sprintfS dv,
                    Slug := sprintfS sv, Path := DocumentTemplatePath }
                  n src with
              | error e => rw [hr] at hout; simp at hout
              | ok o =>
                rw [hr] at hout
                simp only [Except.ok.injEq] at hout
                rw [← hout]

/-- C6 instance: path "about" is rejected with the slash error; path
"/about" renders and is written to "build/about/index.html". -/
theorem RenderAst_path_validation_spec_witness :
    RenderAst envW mdBadPathW textNodeW srcW = .error badPathMsg ∧
    (∃ pv, List.lookup "path" mdGoodW = some pv ∧
      hasLeadingSlash (sprintfS pv) = true ∧
      outG.writePath = goPathJoin ["build", sprintfS pv, "/index.html"]) ∧
    goPathJoin ["build", "/about", "/index.html"] = "build/about/index.html" := by
  refine ⟨RenderAst_path_validation_spec.2.1 mdBadPathW (.str "T") (.str "D")
      (.str "S") (.str "about") envW textNodeW srcW rfl rfl rfl rfl rfl, ?_,
    RenderAst_path_validation_spec.2.2.2⟩
  have hrender : renderAstNode envW
      { Title := "T", Description := "D", Slug := "S", Path := DocumentTemplatePath }
      textNodeW srcW = .ok "[/templates/inline/text.tmpl.html](hello\n)()" := by
    simp only [textNodeW, renderAstNode_decomp]
    rfl
  have hok : RenderAst envW mdGoodW textNodeW srcW = .ok outG := by
    show renderAndWrite envW
      { Title := "T", Description := "D", Slug := "S", Path := DocumentTemplatePath }
      "/about" textNodeW srcW = .ok outG
    unfold renderAndWrite
    rw [hrender]
    rfl
  exact RenderAst_path_validation_spec.2.2.1 envW mdGoodW textNodeW srcW outG hok

/-- C9: when validation passes, `RenderAst` invokes the recursive renderer
with a `PageMeta` whose Title, Description and Slug are the string
coercions of the metadata values and whose Path is the
`DocumentTemplatePath` constant — not the "path" value of the page. -/
theorem RenderAst_pageMeta_spec (env : TemplateEnv) (md : List (String × MetaValue))
    (n : Node) (src : List Char) (tv dv sv pv : MetaValue)
    (ht : md.lookup "title" = some tv) (hd : md.lookup "description" = some dv)
    (hs : md.lookup "slug" = some sv) (hp : md.lookup "path" = some pv)
    (hslash : hasLeadingSlash (sprintfS pv) = true) :
    RenderAst env md n src =
      renderAndWrite env
        { Title := sprintfS tv, Description := sprintfS dv, Slug := sprintfS sv,
          Path := DocumentTemplatePath } (sprintfS pv) n src ∧
    (∀ out, RenderAst env md n src = .ok out →
      out.pageMeta =
        { Title := sprintfS tv, Description := sprintfS dv, Slug := sprintfS sv,
          Path := DocumentTemplatePath }) ∧
    DocumentTemplatePath ≠ sprintfS pv := by
  have hmain : RenderAst env md n src =
      renderAndWrite env
        { Title := sprintfS tv, Description := sprintfS dv, Slug := sprintfS sv,
          Path := DocumentTemplatePath } (sprintfS pv) n src := by
    rw [RenderAst.eq_def]
    simp [ht, hd, hs, hp, hslash]
  refine ⟨hmain, fun out hout => ?_, fun hc => ?_⟩
  · rw [hmain] at hout
    unfold renderAndWrite at hout
    cases hr : renderAstNode env
        { Title := sprintfS tv, Description := sprintfS dv, Slug := sprintfS sv,
          Path := DocumentTemplatePath } n src with
    | error e => rw [hr] at hout; simp at hout
    | ok o =>
      rw [hr] at hout
      simp only [Except.ok.injEq] at hout
      rw [← hout]
  · have hfalse : hasLeadingSlash DocumentTemplatePath = false := rfl
    rw [hc, hslash] at hfalse
    exact Bool.noConfusion hfalse

/-- C9 instance: concrete well-formed metadata yields the synthesized
`PageMeta` with the document template path. -/
theorem RenderAst_pageMeta_spec_witness :
    RenderAst envW mdGoodW textNodeW srcW =
      renderAndWrite envW
        { Title := sprintfS (.str "T"), Description := sprintfS (.str "D"),
          Slug := sprintfS (.str "S"), Path := DocumentTemplatePath }
        (sprintfS (.str "/about")) textNodeW srcW ∧
    outG.pageMeta =
      { Title := sprintfS (.str "T"), Description := sprintfS (.str "D"),
        Slug := sprintfS (.str "S"), Path := DocumentTemplatePath } ∧
    DocumentTemplatePath ≠ sprintfS (.str "/about") := by
  have h := RenderAst_pageMeta_spec envW mdGoodW textNodeW srcW
    (.str "T") (.str "D") (.str "S") (.str "/about") rfl rfl rfl rfl rfl
  have hrender : renderAstNode envW
      { Title := "T", Description := "D", Slug := "S", Path := DocumentTemplatePath }
      textNodeW srcW = .ok "[/templates/inline/text.tmpl.html](hello\n)()" := by
    simp only [textNodeW, renderAstNode_decomp]
    rfl
  have hok : RenderAst envW mdGoodW textNodeW srcW = .ok outG := by
    show renderAndWrite envW
      { Title := "T", Description := "D", Slug := "S", Path := DocumentTemplatePath }
      "/about" textNodeW srcW = .ok outG
    unfold renderAndWrite
    rw [hrender]
    rfl
  exact ⟨h.1, h.2.1 outG hok, h.2.2⟩

/-- C10: `RenderAst` validation checks only key presence, in the order
title, description, slug, path — failing with the error of the earliest
missing key — then the leading-slash check; present values of any type pass and
are coerced with their `%s` formatting. -/
theorem RenderAst_validation_order_spec :
    (∀ (md : List (String × MetaValue)) (env : TemplateEnv) (n : Node)
        (src : List Char), md.lookup "title" = none →
      RenderAst env md n src = .error (missingFieldMsg "title")) ∧
    (∀ (md : List (String × MetaValue)) (env : TemplateEnv) (n : Node)
        (src : List Char) (tv : MetaValue),
      md.lookup "title" = some tv → md.lookup "description" = none →
      RenderAst env md n src = .error (missingFieldMsg "description")) ∧
    (∀ (md : List (String × MetaValue)) (env : TemplateEnv) (n : Node)
        (src : List Char) (tv dv : MetaValue),
      md.lookup "title" = some tv → md.lookup "description" = some dv →
      md.lookup "slug" = none →
      RenderAst env md n src = .error (missingFieldMsg "slug")) ∧
    (∀ (md : List (String × MetaValue)) (env : TemplateEnv) (n : Node)
        (src : List Char) (tv dv sv : MetaValue),
      md.lookup "title" = some tv → md.lookup "description" = some dv →
      md.lookup "slug" = some sv → md.lookup "path" = none →
      RenderAst env md n src = .error (missingFieldMsg "path")) ∧
    (∀ (md : List (String × MetaValue)) (env : TemplateEnv) (n : Node)
        (src : List Char) (tv dv sv pv : MetaValue),
      md.lookup "title" = some tv → md.lookup "description" = some dv →
      md.lookup "slug" = some sv → md.lookup "path" = some pv →
      hasLeadingSlash (sprintfS pv) = true →
      RenderAst env md n src =
        renderAndWrite env
          { Title := sprintfS tv, Description := sprintfS dv,
            Slug := sprintfS sv, Path := DocumentTemplatePath }
          (sprintfS pv) n src) := by
  refine ⟨?_, ?_, ?_, ?_, ?_⟩
  · intro md env n src ht
    simp [RenderAst, ht]
  · intro md env n src tv ht hd
    simp [RenderAst, ht, hd]
  · intro md env n src tv dv ht hd hs
    simp [RenderAst, ht, hd, hs]
  · intro md env n src tv dv sv ht hd hs hp
    simp [RenderAst, ht, hd, hs, hp]
  · intro md env n src tv dv sv pv ht hd hs hp hslash
    rw [RenderAst.eq_def]
    simp [ht, hd, hs, hp, hslash]

/-- C10 instance: empty metadata fails naming "title"; metadata whose
title, description and slug are an int, a bool and an int passes
validation and reaches the renderer. -/
theorem RenderAst_validation_order_spec_witness :
    RenderAst envW [] textNodeW srcW = .error (missingFieldMsg "title") ∧
    RenderAst envW mdTypedW textNodeW srcW =
      renderAndWrite envW
        { Title := sprintfS (.int 7), Description := sprintfS (.bool true),
          Slug := sprintfS (.int 0), Path := DocumentTemplatePath }
        (sprintfS (.str "/p")) textNodeW srcW :=
  ⟨RenderAst_validation_order_spec.1 [] envW textNodeW srcW rfl,
   RenderAst_validation_order_spec.2.2.2.2 mdTypedW envW textNodeW srcW
     (.int 7) (.bool true) (.int 0) (.str "/p") rfl rfl rfl rfl rfl⟩

theorem getTemplateContent_unreg (env : TemplateEnv) (k : NodeKind)
    (h : KindTemplateMap env.rendererPath k = none) :
    getTemplateContent env k = .error (noTemplateMsg k) := by
  simp [getTemplateContent, h]

theorem frag_ok_self_reg (env : TemplateEnv) (pm : PageMeta) (d : NodeData)
    (fc ns : Option Node) (src : List Char) (f : String)
    (h : renderNodeFrag env pm (.mk d fc ns) src = .ok f) :
    (KindTemplateMap env.rendererPath (NodeData.kind d)).isNone = false := by
  cases hk : KindTemplateMap env.rendererPath (NodeData.kind d) with
  | some tp => simp
  | none =>
    exfalso
    cases fc with
    | none =>
      simp [renderNodeFrag, Node.firstChild, Node.kind, Node.data,
        getTemplateContent, hk, Bind.bind, Except.bind] at h
    | some c =>
      cases hcr : renderAstNode env pm c src with
      | error e =>
        simp [renderNodeFrag, Node.firstChild, hcr, Bind.bind, Except.bind] at h
      | ok s =>
        simp [renderNodeFrag, Node.firstChild, Node.kind, Node.data, hcr,
          getTemplateContent, hk, Bind.bind, Except.bind] at h

theorem frag_ok_child_ok (env : TemplateEnv) (pm : PageMeta) (d : NodeData)
    (c : Node) (ns : Option Node) (src : List Char) (f : String)
    (h : renderNodeFrag env pm (.mk d (some c) ns) src = .ok f) :
    ∃ s, renderAstNode env pm c src = .ok s := by
  cases hcr : renderAstNode env pm c src with
  | ok s => exact ⟨s, rfl⟩
  | error e =>
    exfalso
    simp [renderNodeFrag, Node.firstChild, hcr, Bind.bind, Except.bind] at h

theorem frag_error_of_child_error (env : TemplateEnv) (pm : PageMeta) (d : NodeData)
    (c : Node) (ns : Option Node) (src : List Char) (e : String)
    (h : renderAstNode env pm c src = .error e) :
    renderNodeFrag env pm (.mk d (some c) ns) src = .error e := by
  simp [renderNodeFrag, Node.firstChild, h, Bind.bind, Except.bind]

/-- A tree containing a node of an unregistered kind renders to an error,
whatever the environment does. -/
theorem render_error_of_unreg_aux (env : TemplateEnv) (pm : PageMeta) (src : List Char) :
    ∀ (k : Nat) (n : Node), sizeOf n ≤ k →
      treeHasKind (fun kk => (KindTemplateMap env.rendererPath kk).isNone) n = true →
      ∃ e, renderAstNode env pm n src = .error e := by
  intro k
  induction k with
  | zero =>
    intro n hn
    obtain ⟨d, fc, ns⟩ := n
    simp [Node.mk.sizeOf_spec] at hn
  | succ k ih =>
    intro n hn hhas
    obtain ⟨d, fc, ns⟩ := n
    rw [renderAstNode_decomp]
    cases hfrag : renderNodeFrag env pm (.mk d fc ns) src with
    | error e =>
      refine ⟨e, ?_⟩
      cases ns <;> rfl
    | ok f =>
      have hreg := frag_ok_self_reg env pm d fc ns src f hfrag
      rw [treeHasKind.eq_def] at hhas
      cases fc with
      | none =>
        cases ns with
        | none => simp [hreg] at hhas
        | some sib =>
          have hsib : treeHasKind
              (fun kk => (KindTemplateMap env.rendererPath kk).isNone) sib = true := by
            simpa [hreg] using hhas
          have hsk : sizeOf sib ≤ k := by
            simp [Node.mk.sizeOf_spec] at hn
            omega
          obtain ⟨e, he⟩ := ih sib hsk hsib
          refine ⟨e, ?_⟩
          simp [Bind.bind, Except.bind, he]
      | some c =>
        obtain ⟨s, hcs⟩ := frag_ok_child_ok env pm d c ns src f hfrag
        have hcclean : treeHasKind
            (fun kk => (KindTemplateMap env.rendererPath kk).isNone) c = false := by
          cases hcc : treeHasKind
              (fun kk => (KindTemplateMap env.rendererPath kk).isNone) c with
          | false => rfl
          | true =>
            have hck : sizeOf c ≤ k := by
              simp [Node.mk.sizeOf_spec] at hn
              omega
            obtain ⟨e, he⟩ := ih c hck hcc
            rw [he] at hcs
            exact Except.noConfusion hcs
        cases ns with
        | none => simp [hreg, hcclean] at hhas
        | some sib =>
          have hsib : treeHasKind
              (fun kk => (KindTemplateMap env.rendererPath kk).isNone) sib = true := by
            simpa [hreg, hcclean] using hhas
          have hsk : sizeOf sib ≤ k := by
            simp [Node.mk.sizeOf_spec] at hn
            omega
          obtain ⟨e, he⟩ := ih sib hsk hsib
          refine ⟨e, ?_⟩
          simp [Bind.bind, Except.bind, he]

/-- When every template read and every template execution succeeds, a tree
with no unregistered kinds renders successfully. -/
theorem render_ok_of_clean_aux (env : TemplateEnv) (pm : PageMeta) (src : List Char)
    (hrf : ∀ p, ∃ s, env.readFile p = .ok s)
    (hex : ∀ tc td, ∃ s, env.execute tc td = .ok s) :
    ∀ (k : Nat) (n : Node), sizeOf n ≤ k →
      treeHasKind (fun kk => (KindTemplateMap env.rendererPath kk).isNone) n = false →
      ∃ out, renderAstNode env pm n src = .ok out := by
  intro k
  induction k with
  | zero =>
    intro n hn
    obtain ⟨d, fc, ns⟩ := n
    simp [Node.mk.sizeOf_spec] at hn
  | succ k ih =>
    intro n hn hclean
    obtain ⟨d, fc, ns⟩ := n
    rw [treeHasKind.eq_def] at hclean
    simp only [Bool.or_eq_false_iff] at hclean
    obtain ⟨⟨hself, hfcc⟩, hnsc⟩ := hclean
    have hfragok : ∃ f, renderNodeFrag env pm (.mk d fc ns) src = .ok f := by
      have hchild : ∃ s, (match fc with
          | some c => renderAstNode env pm c src
          | none => (Except.ok "" : Except String String)) = .ok s := by
        cases fc with
        | none => exact ⟨"", rfl⟩
        | some c =>
          have hck : sizeOf c ≤ k := by
            simp [Node.mk.sizeOf_spec] at hn
            omega
          exact ih c hck (by simpa using hfcc)
      obtain ⟨s, hcs⟩ := hchild
      cases hk : KindTemplateMap env.rendererPath (NodeData.kind d) with
      | none => simp [hk] at hself
      | some tp =>
        obtain ⟨tc, htc⟩ := hrf tp
        obtain ⟨o, ho⟩ := hex tc
          { Meta := pm
            Config := generateTemplateDataConfig (Node.mk d fc ns)
            Content := generateTemplateDataContent (Node.mk d fc ns) src
            Children := s }
        refine ⟨o, ?_⟩
        simp [renderNodeFrag, Node.firstChild, Node.kind, Node.data, hcs,
          getTemplateContent, hk, htc, ho, Bind.bind, Except.bind]
    obtain ⟨f, hfrag⟩ := hfragok
    rw [renderAstNode_decomp, hfrag]
    cases ns with
    | none => exact ⟨f, rfl⟩
    | some sib =>
      have hsk : sizeOf sib ≤ k := by
        simp [Node.mk.sizeOf_spec] at hn
        omega
      obtain ⟨rest, hrest⟩ := ih sib hsk (by simpa using hnsc)
      exact ⟨f ++ "\n" ++ rest, by simp [Bind.bind, Except.bind, hrest]⟩

/-- When every template read and execution succeeds, a tree containing an
unregistered kind fails precisely with the kind-naming registry error of
some unregistered kind in the tree. -/
theorem render_unreg_named_aux (env : TemplateEnv) (pm : PageMeta) (src : List Char)
    (hrf : ∀ p, ∃ s, env.readFile p = .ok s)
    (hex : ∀ tc td, ∃ s, env.execute tc td = .ok s) :
    ∀ (k : Nat) (n : Node), sizeOf n ≤ k →
      treeHasKind (fun kk => (KindTemplateMap env.rendererPath kk).isNone) n = true →
      ∃ kk, KindTemplateMap env.rendererPath kk = none ∧
        renderAstNode env pm n src = .error (noTemplateMsg kk) := by
  intro k
  induction k with
  | zero =>
    intro n hn
    obtain ⟨d, fc, ns⟩ := n
    simp [Node.mk.sizeOf_spec] at hn
  | succ k ih =>
    intro n hn hhas
    obtain ⟨d, fc, ns⟩ := n
    cases fc with
    | some c =>
      cases hcc : treeHasKind
          (fun kk => (KindTemplateMap env.rendererPath kk).isNone) c with
      | true =>
        have hck : sizeOf c ≤ k := by
          simp [Node.mk.sizeOf_spec] at hn
          omega
        obtain ⟨kk, hmap, he⟩ := ih c hck hcc
        have hfr := frag_error_of_child_error env pm d c ns src _ he
        refine ⟨kk, hmap, ?_⟩
        rw [renderAstNode_decomp, hfr]
        cases ns <;> rfl
      | false =>
        obtain ⟨s, hcs⟩ :=
          render_ok_of_clean_aux env pm src hrf hex (sizeOf c) c le_rfl hcc
        cases hk : KindTemplateMap env.rendererPath (NodeData.kind d) with
        | none =>
          have hfrag : renderNodeFrag env pm (.mk d (some c) ns) src =
              .error (noTemplateMsg (NodeData.kind d)) := by
            simp [renderNodeFrag, Node.firstChild, Node.kind, Node.data, hcs,
              getTemplateContent, hk, Bind.bind, Except.bind]
          refine ⟨NodeData.kind d, hk, ?_⟩
          rw [renderAstNode_decomp, hfrag]
          cases ns <;> rfl
        | some tp =>
          obtain ⟨tc, htc⟩ := hrf tp
          obtain ⟨o, ho⟩ := hex tc
            { Meta := pm
              Config := generateTemplateDataConfig (Node.mk d (some c) ns)
              Content := generateTemplateDataContent (Node.mk d (some c) ns) src
              Children := s }
          have hfrag : renderNodeFrag env pm (.mk d (some c) ns) src = .ok o := by
            simp [renderNodeFrag, Node.firstChild, Node.kind, Node.data, hcs,
              getTemplateContent, hk, htc, ho, Bind.bind, Except.bind]
          cases ns with
          | none =>
            exfalso
            rw [treeHasKind.eq_def] at hhas
            simp [hk, hcc] at hhas
          | some sib =>
            have hsib : treeHasKind
                (fun kk => (KindTemplateMap env.rendererPath kk).isNone) sib = true := by
              rw [treeHasKind.eq_def] at hhas
              simpa [hk, hcc] using hhas
            have hsk : sizeOf sib ≤ k := by
              simp [Node.mk.sizeOf_spec] at hn
              omega
            obtain ⟨kk, hmap, he⟩ := ih sib hsk hsib
            refine ⟨kk, hmap, ?_⟩
            rw [renderAstNode_decomp, hfrag]
            simp [Bind.bind, Except.bind, he]
    | none =>
      cases hk : KindTemplateMap env.rendererPath (NodeData.kind d) with
      | none =>
        have hfrag : renderNodeFrag env pm (.mk d none ns) src =
            .error (noTemplateMsg (NodeData.kind d)) := by
          simp [renderNodeFrag, Node.firstChild, Node.kind, Node.data,
            getTemplateContent, hk, Bind.bind, Except.bind]
        refine ⟨NodeData.kind d, hk, ?_⟩
        rw [renderAstNode_decomp, hfrag]
        cases ns <;> rfl
      | some tp =>
        obtain ⟨tc, htc⟩ := hrf tp
        obtain ⟨o, ho⟩ := hex tc
          { Meta := pm
            Config := generateTemplateDataConfig (Node.mk d none ns)
            Content := generateTemplateDataContent (Node.mk d none ns) src
            Children := "" }
        have hfrag : renderNodeFrag env pm (.mk d none ns) src = .ok o := by
          simp [renderNodeFrag, Node.firstChild, Node.kind, Node.data,
            getTemplateContent, hk, htc, ho, Bind.bind, Except.bind]
        cases ns with
        | none =>
          exfalso
          rw [treeHasKind.eq_def] at hhas
          simp [hk] at hhas
        | some sib =>
          have hsib : treeHasKind
              (fun kk => (KindTemplateMap env.rendererPath kk).isNone) sib = true := by
            rw [treeHasKind.eq_def] at hhas
            simpa [hk] using hhas
          have hsk : sizeOf sib ≤ k := by
            simp [Node.mk.sizeOf_spec] at hn
            omega
          obtain ⟨kk, hmap, he⟩ := ih sib hsk hsib
          refine ⟨kk, hmap, ?_⟩
          rw [renderAstNode_decomp, hfrag]
          simp [Bind.bind, Except.bind, he]

/-- C7: a tree containing a node of a kind with no template binding always
renders to an error (no partial output string), `RenderAst` on it never
produces an output record (no file), and — when template loading and
execution succeed — the error is the registry error naming an unregistered
kind of the tree. -/
theorem renderAstNode_unregistered_spec (env : TemplateEnv) (pm : PageMeta)
    (n : Node) (src : List Char)
    (h : treeHasKind (fun kk => (KindTemplateMap env.rendererPath kk).isNone) n = true) :
    (∃ e, renderAstNode env pm n src = .error e) ∧
    (∀ (md : List (String × MetaValue)) (out : RenderOutput),
      RenderAst env md n src ≠ .ok out) ∧
    ((∀ p, ∃ s, env.readFile p = .ok s) →
      (∀ tc td, ∃ s, env.execute tc td = .ok s) →
      ∃ kk, KindTemplateMap env.rendererPath kk = none ∧
        renderAstNode env pm n src = .error (noTemplateMsg kk) ∧
        ∃ pre post, noTemplateMsg kk = pre ++ kk.name ++ post) := by
  refine ⟨render_error_of_unreg_aux env pm src (sizeOf n) n le_rfl h, ?_, ?_⟩
  · intro md out hok
    cases ht : md.lookup "title" with
    | none => rw [RenderAst.eq_def] at hok; simp [ht] at hok
    | some tv =>
      cases hd : md.lookup "description" with
      | none => rw [RenderAst.eq_def] at hok; simp [ht, hd] at hok
      | some dv =>
        cases hs : md.lookup "slug" with
        | none => rw [RenderAst.eq_def] at hok; simp [ht, hd, hs] at hok
        | some sv =>
          cases hp : md.lookup "path" with
          | none => rw [RenderAst.eq_def] at hok; simp [ht, hd, hs, hp] at hok
          | some pv =>
            cases hsl : hasLeadingSlash (sprintfS pv) with
            | false => rw [RenderAst.eq_def] at hok; simp [ht, hd, hs, hp, hsl] at hok
            | true =>
              rw [RenderAst.eq_def] at hok
              simp [ht, hd, hs, hp, hsl] at hok
              obtain ⟨e, he⟩ := render_error_of_unreg_aux env
                { Title := sprintfS tv, Description := sprintfS dv,
                  Slug := sprintfS sv, Path := DocumentTemplatePath }
                src (sizeOf n) n le_rfl h
              unfold renderAndWrite at hok
              rw [he] at hok
              simp at hok
  · intro hrf hex
    obtain ⟨kk, hmap, he⟩ :=
      render_unreg_named_aux env pm src hrf hex (sizeOf n) n le_rfl h
    exact ⟨kk, hmap, he, "rendering error: node kind (",
      ") doesn\x27t have a template assigned to it", rfl⟩

/-- C7 instance: a GFM table node (kind "Table") has no binding, render
fails naming it, and no output record appears for any metadata. -/
theorem renderAstNode_unregistered_spec_witness :
    (∃ e, renderAstNode envW pmW unregW srcW = .error e) ∧
    RenderAst envW mdGoodW unregW srcW ≠ .ok outG ∧
    (∃ kk, KindTemplateMap envW.rendererPath kk = none ∧
      renderAstNode envW pmW unregW srcW = .error (noTemplateMsg kk) ∧
      ∃ pre post, noTemplateMsg kk = pre ++ kk.name ++ post) := by
  have h := renderAstNode_unregistered_spec envW pmW unregW srcW
    (by rw [treeHasKind.eq_def]; rfl)
  exact ⟨h.1, h.2.1 mdGoodW outG,
    h.2.2 (fun p => ⟨"[" ++ p ++ "]", rfl⟩)
      (fun tc td => ⟨tc ++ "(" ++ td.Content ++ ")(" ++ td.Children ++ ")", rfl⟩)⟩
